import Mathlib

/-!
Verification of the Autonomous DevOps Agent (CICD Healing Agent).

`Frontend` embeds the React dashboard logic of `frontend/src/App.js`
(as staged in `src/VERCEL_DEPLOYMENT_PLAN.md`): the form-validation
logic of `handleRun` and the score function `calculateScore`.

`Agent` models the healing core (Defect Scanner, Fix Engine, Pipeline
Simulator, Healing Loop) from the specification, since
`api/agent_logic.py` is not part of the staged repository snapshot.
-/

namespace Frontend

/-- One entry of `results.fixes` as rendered by the fixes table in App.js:
fields `file`, `bug_type`, `line_number`, `commit_message`, `status`,
`fix_detail`. -/
structure FFix where
  file : String
  bug_type : String
  line_number : Nat
  commit_message : String
  status : String
  fix_detail : String

/-- One entry of `results.cicd_runs` as rendered by the CI/CD timeline in
App.js: a status string (PASSED / FAILED / RUNNING) and a timestamp. -/
structure FRun where
  status : String
  timestamp : String

/-- The run-result object held in the `results` state of App.js, with every
field the component reads.  `total_time_taken` is a JS number (the backend
reports values such as 45.2), modelled as a rational; `total_fixes_applied`
is an integer count. -/
structure RunResult where
  repo_url : String
  team_name : String
  leader_name : String
  branch_name : String
  branch_url : String
  token_used : String
  push_destination : String
  cicd_status : String
  total_iterations : Nat
  total_time_taken : ℚ
  total_fixes_applied : ℤ
  fixes : List FFix
  cicd_runs : List FRun

/-- `calculateScore` from App.js.  The React component reads `results` from
state, so the embedding takes the `results` state (possibly null) as an
argument:

    if (!results) return 0;
    let score = 100;
    if (results.total_time_taken < 300) score += 10;
    if (results.total_fixes_applied > 20) {
      score -= (results.total_fixes_applied - 20) * 2;
    }
    return Math.max(score, 0);
-/
def calculateScore (results : Option RunResult) : ℤ :=
  match results with
  | none => 0
  | some r =>
    let score : ℤ := 100
    let score : ℤ := if r.total_time_taken < 300 then score + 10 else score
    let score : ℤ :=
      if r.total_fixes_applied > 20 then score - (r.total_fixes_applied - 20) * 2
      else score
    max score 0

/-- The form state of App.js (`formData`): repository URL, team name, leader
name and the optional GitHub token, all strings (empty = not filled in). -/
structure FormData where
  repoUrl : String
  teamName : String
  leaderName : String
  githubToken : String

/-- The body of the POST to the analyze endpoint issued by `handleRun`. -/
structure AnalyzeRequest where
  repo_url : String
  team_name : String
  leader_name : String
  github_token : String

/-- The component state that `handleRun` updates before issuing the request:
the `loading` flag, the `error` message and the `results` object. -/
structure UIState where
  loading : Bool
  error : String
  results : Option RunResult

/-- The synchronous prefix of `handleRun` from App.js, up to and including
the issuing of the POST request (the awaited response handling is the
asynchronous remainder).  JS string truthiness: `!formData.repoUrl` is true
exactly when the string is empty.

    if (!formData.repoUrl || !formData.teamName || !formData.leaderName) {
      setError('Please fill in all required fields');
      return;
    }
    setError('');
    setLoading(true);
    setResults(null);
    ... axios.post('http://localhost:8000/analyze', { repo_url, team_name,
        leader_name, github_token }) ...

Returns the updated state and the list of requests issued. -/
def handleRun (fd : FormData) (s : UIState) : UIState × List AnalyzeRequest :=
  if fd.repoUrl = "" ∨ fd.teamName = "" ∨ fd.leaderName = "" then
    ({ s with error := "Please fill in all required fields" }, [])
  else
    ({ loading := true, error := "", results := none },
     [⟨fd.repoUrl, fd.teamName, fd.leaderName, fd.githubToken⟩])

/-- A sample run result: 25 fixes in 250 seconds (Scenario D). -/
def sampleResultD : RunResult :=
  ⟨"https://github.com/u/r", "RIFT ORGANISERS", "John Doe",
   "RIFT_ORGANISERS_JOHN_DOE_AI_Fix", "https://github.com/u/r/tree/b",
   "User Token", "Fork", "PASSED", 1, 250, 25, [], []⟩

/-- A sample run result with 30 fixes in 250 seconds. -/
def sampleResultE : RunResult :=
  ⟨"https://github.com/u/r", "RIFT ORGANISERS", "John Doe",
   "RIFT_ORGANISERS_JOHN_DOE_AI_Fix", "https://github.com/u/r/tree/b",
   "User Token", "Fork", "PASSED", 1, 250, 30, [], []⟩

/-- A run result agreeing with `sampleResultD` on `total_time_taken` and
`total_fixes_applied` but differing in every other field. -/
def sampleResultD2 : RunResult :=
  ⟨"https://github.com/x/y", "OTHER TEAM", "Jane Roe",
   "OTHER_BRANCH", "https://github.com/x/y/tree/c",
   "Default Token", "Original Repo", "FAILED", 5, 250, 25,
   [⟨"a.py", "LINTING", 3, "fix", "Failed", "detail"⟩],
   [⟨"FAILED", "t1"⟩, ⟨"PASSED", "t2"⟩]⟩

/-- A fully filled form. -/
def sampleForm : FormData :=
  ⟨"https://github.com/u/r", "RIFT ORGANISERS", "John Doe", ""⟩

/-- A form with the repository URL left empty. -/
def sampleFormEmpty : FormData :=
  ⟨"", "RIFT ORGANISERS", "John Doe", "ghp_x"⟩

/-- The initial component state of App.js. -/
def initialState : UIState := ⟨false, "", none⟩

end Frontend

namespace Agent

/-- Modelled from the spec (§3 data model): the closed enum of defect kinds
recognised by the Defect Scanner. -/
inductive DefectKind where
  | LINTING
  | SYNTAX
  | TYPE_ERROR
  | INDENTATION
  | IMPORT
  deriving DecidableEq, Repr

/-- Modelled from the spec (§3): one detected defect instance — file path,
defect kind, line number, the raw matched text (a line, as a character
list), immutable once created.  Severity is omitted: no claim reads it. -/
structure Finding where
  file : String
  kind : DefectKind
  line : Nat
  raw : List Char
  deriving DecidableEq, Repr

/-- Modelled from the spec (§3): a Fix's status. -/
inductive FixStatus where
  | Fixed
  | Failed
  deriving DecidableEq, Repr

/-- Modelled from the spec (§3): one attempted repair — file, defect kind,
line number, commit message, fix detail, and status. -/
structure Fix where
  file : String
  kind : DefectKind
  line : Nat
  commit_message : String
  fix_detail : String
  status : FixStatus
  deriving DecidableEq, Repr

/-- Modelled from the spec (§3): a pipeline verdict. -/
inductive PipelineStatus where
  | PASSED
  | FAILED
  | RUNNING
  deriving DecidableEq, Repr

/-- Modelled from the spec (§3): one PipelineRun record, created once per
Healing Loop iteration.  The wall-clock timestamp is outside the model. -/
structure PipelineRun where
  iteration : Nat
  status : PipelineStatus
  deriving DecidableEq, Repr

/-- One file of the working copy: a path and its lines (each a character
list, the model of raw text). -/
structure FileEntry where
  path : String
  lines : List (List Char)
  deriving DecidableEq

/-- The list of all defect kinds, in the scanner's rule order. -/
def allKinds : List DefectKind :=
  [.LINTING, .SYNTAX, .TYPE_ERROR, .INDENTATION, .IMPORT]

/-- `p` is a prefix of `l`, as a boolean on character lists. -/
def hasPrefix : List Char → List Char → Bool
  | [], _ => true
  | _ :: _, [] => false
  | c :: p, d :: l => c == d && hasPrefix p l

/-- The debug-statement pattern the LINTING detector matches ("print("). -/
def printPat : List Char := ['p', 'r', 'i', 'n', 't', '(']

/-- The control-construct pattern whose line requires a trailing colon
("if "). -/
def ifPat : List Char := ['i', 'f', ' ']

/-- The string-plus-number pattern the TYPE_ERROR heuristic matches. -/
def typePat : List Char := ['"', '1', '"', ' ', '+', ' ', '1']

/-- The dangling-module-reference pattern the IMPORT detector matches. -/
def ghostPat : List Char :=
  ['i', 'm', 'p', 'o', 'r', 't', ' ', 'g', 'h', 'o', 's', 't']

/-- One indentation unit of four spaces, the normal form the INDENTATION
fixer rewrites a tab-indented line to. -/
def spaces4 : List Char := [' ', ' ', ' ', ' ']

/-- Modelled from the spec (§4.1): the per-kind detection rules, each a pure
function from a line's text to whether that line exhibits the defect.  The
concrete textual patterns stand in for the source-dialect-specific
heuristics of the absent `agent_logic.py`:
LINTING matches a leftover debug statement, SYNTAX a control construct
missing its trailing colon, TYPE_ERROR a string-plus-number expression,
INDENTATION a tab-indented line, IMPORT a dangling module reference. -/
def detector : DefectKind → List Char → Bool
  | .LINTING, l => hasPrefix printPat l
  | .SYNTAX, l => hasPrefix ifPat l && !decide (l.getLast? = some ':')
  | .TYPE_ERROR, l => hasPrefix typePat l
  | .INDENTATION, l => hasPrefix ['\t'] l
  | .IMPORT, l => hasPrefix ghostPat l

/-- The kinds a line triggers, in rule order. -/
def detectKinds (l : List Char) : List DefectKind :=
  allKinds.filter (fun k => detector k l)

/-- Modelled from the spec (§4.1): scan the lines of one file, numbering
them from `i`, producing Findings in line order; each line yields one
Finding per matching detection rule. -/
def scanLinesFrom (path : String) (i : Nat) : List (List Char) → List Finding
  | [] => []
  | l :: rest =>
    (detectKinds l).map (fun k => ⟨path, k, i, l⟩) ++ scanLinesFrom path (i + 1) rest

/-- Modelled from the spec (§4.1): the Defect Scanner — walk the working
copy's files in traversal order, re-reading contents fresh each call, and
report every file's Findings in file order then line order. -/
def scanWC : List FileEntry → List Finding
  | [] => []
  | e :: rest => scanLinesFrom e.path 0 e.lines ++ scanWC rest

/-- Modelled from the spec (§4.2): the closed mapping from defect kind to
rewrite rule.  LINTING deletes the offending statement (the line becomes
empty); SYNTAX inserts the missing trailing colon; TYPE_ERROR has no safe
rewrite under the documented heuristic (the defensive-failure path of §4.2,
exercised by Scenario B), so it yields no rewrite; INDENTATION normalises
the leading tabs to one four-space indentation unit; IMPORT comments the
dangling reference out. -/
def fixLine : DefectKind → List Char → Option (List Char)
  | .LINTING, _ => some []
  | .SYNTAX, l => some (l ++ [':'])
  | .TYPE_ERROR, _ => none
  | .INDENTATION, l => some (spaces4 ++ l.dropWhile (fun c => c == '\t'))
  | .IMPORT, l => some ('#' :: ' ' :: l)

/-- The human-readable name of a defect kind, used in commit messages. -/
def kindName : DefectKind → String
  | .LINTING => "LINTING"
  | .SYNTAX => "SYNTAX"
  | .TYPE_ERROR => "TYPE_ERROR"
  | .INDENTATION => "INDENTATION"
  | .IMPORT => "IMPORT"

/-- Modelled from the spec (§4.2): the Fix Engine on one Finding — apply the
kind's rewrite rule to the identified line of the named file and persist it
(mutating the working copy in place, modelled as returning the new copy), or
record a Failed Fix when the rewrite cannot be safely applied.  Returns the
rewritten working copy and the Fix record. -/
def applyFix (wc : List FileEntry) (fi : Finding) : List FileEntry × Fix :=
  match fixLine fi.kind fi.raw with
  | some l2 =>
    (wc.map (fun e =>
        if e.path = fi.file then { e with lines := e.lines.set fi.line l2 } else e),
     ⟨fi.file, fi.kind, fi.line, "Fix " ++ kindName fi.kind ++ " issue",
      "rewrote line", .Fixed⟩)
  | none =>
    (wc,
     ⟨fi.file, fi.kind, fi.line, "Fix " ++ kindName fi.kind ++ " issue",
      "no safe rewrite", .Failed⟩)

/-- Modelled from the spec (§4.4 FIXING): attempt a Fix for every Finding of
the current scan, in the scanner's order, threading the working copy. -/
def fixAll (wc : List FileEntry) : List Finding → List FileEntry × List Fix
  | [] => (wc, [])
  | fi :: rest =>
    let step := applyFix wc fi
    let restStep := fixAll step.1 rest
    (restStep.1, step.2 :: restStep.2)

/-- The number of Failed fixes in a fix list. -/
def failedCount (fs : List Fix) : Nat :=
  fs.countP (fun fx => decide (fx.status = .Failed))

/-- Modelled from the spec (§4.3): the Pipeline Simulator — a pure verdict
function of the working copy and the current iteration's fixes: PASSED if no
unresolved Findings remain and no Fix of the iteration has status Failed,
otherwise FAILED. -/
def evaluate (wc : List FileEntry) (iterFixes : List Fix) : PipelineStatus :=
  if scanWC wc = [] ∧ failedCount iterFixes = 0 then .PASSED else .FAILED

/-- Modelled from the spec (§4.4): a run's terminal state. -/
inductive RunOutcome where
  | PASSED
  | EXHAUSTED
  deriving DecidableEq, Repr

/-- Modelled from the spec (§3): the terminal record of one invocation, in
the parts the claims read — completed iterations, the cumulative Fix
sequence, the PipelineRun history, the terminal state, and the final
working copy.  Repository/team metadata and timings live at the boundary. -/
structure AnalysisResult where
  totalIterations : Nat
  totalFixesApplied : Nat
  fixes : List Fix
  runs : List PipelineRun
  outcome : RunOutcome
  finalWC : List FileEntry
  deriving DecidableEq

/-- Modelled from the spec (§4.4): the Healing Loop — each iteration scans,
attempts a Fix for every Finding, simulates the pipeline on the rewritten
copy and appends exactly one PipelineRun; it stops with PASSED on a passing
verdict and with EXHAUSTED when the iteration budget runs out.  `fuel` is
the number of iterations still allowed, `iter` the number completed. -/
def healLoop : Nat → Nat → List FileEntry → List Fix → List PipelineRun → AnalysisResult
  | 0, iter, wc, accF, accR => ⟨iter, accF.length, accF, accR, .EXHAUSTED, wc⟩
  | fuel + 1, iter, wc, accF, accR =>
    let findings := scanWC wc
    let fixed := fixAll wc findings
    let verdict := evaluate fixed.1 fixed.2
    let accF2 := accF ++ fixed.2
    let accR2 := accR ++ [⟨iter + 1, verdict⟩]
    if verdict = .PASSED then ⟨iter + 1, accF2.length, accF2, accR2, .PASSED, fixed.1⟩
    else healLoop fuel (iter + 1) fixed.1 accF2 accR2

/-- Modelled from the spec (§4.4, §6): run the agent's core on a working
copy with the configured iteration budget (default 5). -/
def runAgent (maxIterations : Nat) (wc : List FileEntry) : AnalysisResult :=
  healLoop maxIterations 0 wc [] []

/-- A working copy with one file holding a single debug statement
(Scenario A's shape). -/
def wcLint : List FileEntry := [⟨"main.py", [printPat]⟩]

/-- The LINTING Finding the scanner reports for `wcLint`. -/
def fiLint : Finding := ⟨"main.py", .LINTING, 0, printPat⟩

/-- A working copy with one permanently malformed TYPE_ERROR line
(Scenario B's shape). -/
def wcType : List FileEntry := [⟨"calc.py", [typePat]⟩]

/-- Finding equality in the sense of the idempotence guarantee (§4.2): same
file, same defect kind, same location. -/
def findingMatches (fi F2 : Finding) : Bool :=
  decide (F2.file = fi.file) && decide (F2.kind = fi.kind) && decide (F2.line = fi.line)

end Agent

/-- C2: Scenario D concretely: `calculateScore` on a result with 25 fixes in
250 seconds returns 100 (base 100, +10 speed bonus, −2·5 penalty). -/
theorem calculateScore_scenarioD :
    Frontend.calculateScore (some Frontend.sampleResultD) = 100 := by
  norm_num [Frontend.calculateScore, Frontend.sampleResultD]

/-- C8: before any run has completed (`results` is null), `calculateScore`
returns 0, not the base score of 100. -/
theorem calculateScore_none : Frontend.calculateScore none = 0 := rfl

/-- C1: for every run result with `total_fixes_applied ≥ 0` and
`total_time_taken ≥ 0`, the score is
`max 0 (100 + (10 if time < 300) − ((fixes − 20)·2 if fixes > 20))`. -/
theorem calculateScore_formula (r : Frontend.RunResult)
    (hf : 0 ≤ r.total_fixes_applied) (ht : 0 ≤ r.total_time_taken) :
    Frontend.calculateScore (some r) =
      max 0 (100 + (if r.total_time_taken < 300 then (10 : ℤ) else 0)
        - (if r.total_fixes_applied > 20
            then (r.total_fixes_applied - 20) * 2 else 0)) := by
  simp only [Frontend.calculateScore, max_def]
  split_ifs <;> omega

/-- Witness for `calculateScore_formula` at Scenario D's concrete result. -/
theorem calculateScore_formula_witness :
    Frontend.calculateScore (some Frontend.sampleResultD) =
      max 0 (100 + (if Frontend.sampleResultD.total_time_taken < 300 then (10 : ℤ) else 0)
        - (if Frontend.sampleResultD.total_fixes_applied > 20
            then (Frontend.sampleResultD.total_fixes_applied - 20) * 2 else 0)) :=
  calculateScore_formula Frontend.sampleResultD (by norm_num [Frontend.sampleResultD])
    (by norm_num [Frontend.sampleResultD])

/-- C3: with the time fixed, the score is monotonically non-increasing in the
fix count from 20 on, and the score is never negative. -/
theorem calculateScore_monotone_nonneg :
    (∀ r1 r2 : Frontend.RunResult,
      r1.total_time_taken = r2.total_time_taken →
      20 ≤ r1.total_fixes_applied →
      r1.total_fixes_applied ≤ r2.total_fixes_applied →
      Frontend.calculateScore (some r2) ≤ Frontend.calculateScore (some r1))
    ∧ ∀ res : Option Frontend.RunResult, 0 ≤ Frontend.calculateScore res := by
  constructor
  · intro r1 r2 htime h20 hle
    simp only [Frontend.calculateScore, max_def]
    rw [htime]
    split_ifs <;> omega
  · intro res
    cases res with
    | none => exact le_refl 0
    | some r =>
      simp only [Frontend.calculateScore, max_def]
      split_ifs <;> omega

/-- Witness for `calculateScore_monotone_nonneg`: 30 fixes score no more
than 25 fixes at the same 250-second timing, and scores are nonnegative. -/
theorem calculateScore_monotone_nonneg_witness :
    Frontend.calculateScore (some Frontend.sampleResultE) ≤
      Frontend.calculateScore (some Frontend.sampleResultD)
    ∧ 0 ≤ Frontend.calculateScore (some Frontend.sampleResultE) :=
  ⟨calculateScore_monotone_nonneg.1 Frontend.sampleResultD Frontend.sampleResultE rfl
      (by norm_num [Frontend.sampleResultD]) (by norm_num [Frontend.sampleResultD, Frontend.sampleResultE]),
   calculateScore_monotone_nonneg.2 (some Frontend.sampleResultE)⟩

/-- C10: `calculateScore` reads only `total_time_taken` and
`total_fixes_applied`: two results agreeing on those two fields get the
same score, whatever their other fields hold. -/
theorem calculateScore_depends_only_on_time_and_fixes
    (r1 r2 : Frontend.RunResult)
    (htime : r1.total_time_taken = r2.total_time_taken)
    (hfix : r1.total_fixes_applied = r2.total_fixes_applied) :
    Frontend.calculateScore (some r1) = Frontend.calculateScore (some r2) := by
  simp only [Frontend.calculateScore]
  rw [htime, hfix]

/-- Witness for `calculateScore_depends_only_on_time_and_fixes`: two results
differing in every field but the two score inputs. -/
theorem calculateScore_depends_only_witness :
    Frontend.calculateScore (some Frontend.sampleResultD) =
      Frontend.calculateScore (some Frontend.sampleResultD2) :=
  calculateScore_depends_only_on_time_and_fixes Frontend.sampleResultD
    Frontend.sampleResultD2 rfl rfl

/-- C9: `handleRun` validation: with any required field empty it sets the
error message, issues no request and leaves the loading flag unchanged;
with all three required fields non-empty (the GitHub token unconstrained)
it clears the error and issues exactly one analyze request carrying the
form's fields. -/
theorem handleRun_validation (fd : Frontend.FormData) (s : Frontend.UIState) :
    ((fd.repoUrl = "" ∨ fd.teamName = "" ∨ fd.leaderName = "") →
      (Frontend.handleRun fd s).1.error = "Please fill in all required fields"
      ∧ (Frontend.handleRun fd s).2 = []
      ∧ (Frontend.handleRun fd s).1.loading = s.loading)
    ∧ (fd.repoUrl ≠ "" → fd.teamName ≠ "" → fd.leaderName ≠ "" →
      (Frontend.handleRun fd s).1.error = ""
      ∧ (Frontend.handleRun fd s).2
          = [⟨fd.repoUrl, fd.teamName, fd.leaderName, fd.githubToken⟩]) := by
  unfold Frontend.handleRun
  constructor
  · intro h
    rw [if_pos h]
    exact ⟨rfl, rfl, rfl⟩
  · intro h1 h2 h3
    rw [if_neg (by tauto)]
    exact ⟨rfl, rfl⟩

/-- Witness for `handleRun_validation`: the empty-URL form is rejected with
no request; the filled form (with an empty optional token) issues exactly
one request. -/
theorem handleRun_validation_witness :
    ((Frontend.handleRun Frontend.sampleFormEmpty Frontend.initialState).2 = []
      ∧ (Frontend.handleRun Frontend.sampleFormEmpty Frontend.initialState).1.error
          = "Please fill in all required fields")
    ∧ (Frontend.handleRun Frontend.sampleForm Frontend.initialState).2
        = [⟨"https://github.com/u/r", "RIFT ORGANISERS", "John Doe", ""⟩] :=
  ⟨⟨((handleRun_validation Frontend.sampleFormEmpty Frontend.initialState).1
      (Or.inl rfl)).2.1,
    ((handleRun_validation Frontend.sampleFormEmpty Frontend.initialState).1
      (Or.inl rfl)).1⟩,
   ((handleRun_validation Frontend.sampleForm Frontend.initialState).2
      (by decide) (by decide) (by decide)).2⟩

/-- Helper: a kind reported for a line by `detectKinds` has a true detector. -/
theorem detectKinds_sound (k : Agent.DefectKind) (l : List Char)
    (h : k ∈ Agent.detectKinds l) : Agent.detector k l = true := by
  rw [Agent.detectKinds] at h
  exact (List.mem_filter.mp h).2

/-- Helper: what membership in a per-file scan says about a Finding: the file
path matches, the line number is in range (counting from `i`), and the
detector of the Finding's kind accepts the text at that line. -/
theorem scanLinesFrom_mem (p : String) (F : Agent.Finding) :
    ∀ (i : Nat) (ls : List (List Char)), F ∈ Agent.scanLinesFrom p i ls →
      F.file = p ∧ i ≤ F.line ∧ F.line - i < ls.length ∧
      Agent.detector F.kind (ls.getD (F.line - i) []) = true := by
  intro i ls
  induction ls generalizing i with
  | nil => intro h; simp [Agent.scanLinesFrom] at h
  | cons l rest ih =>
    intro h
    rw [Agent.scanLinesFrom] at h
    rcases List.mem_append.mp h with h1 | h2
    · rcases List.mem_map.mp h1 with ⟨k, hk, hF⟩
      subst hF
      refine ⟨rfl, Nat.le_refl i, by simp, ?_⟩
      show Agent.detector k ((l :: rest).getD (i - i) []) = true
      rw [Nat.sub_self]
      exact detectKinds_sound k l hk
    · obtain ⟨h3, h4, h5, h6⟩ := ih (i + 1) h2
      refine ⟨h3, by omega, by simp only [List.length_cons]; omega, ?_⟩
      have heq : F.line - i = (F.line - (i + 1)) + 1 := by omega
      rw [heq, List.getD_cons_succ]
      exact h6

/-- Helper: a Finding of the whole-working-copy scan comes from one file. -/
theorem scanWC_mem (F : Agent.Finding) :
    ∀ wc : List Agent.FileEntry, F ∈ Agent.scanWC wc →
      ∃ e ∈ wc, F ∈ Agent.scanLinesFrom e.path 0 e.lines := by
  intro wc
  induction wc with
  | nil => intro h; simp [Agent.scanWC] at h
  | cons e rest ih =>
    intro h
    rw [Agent.scanWC] at h
    rcases List.mem_append.mp h with h1 | h2
    · exact ⟨e, List.mem_cons_self e rest, h1⟩
    · obtain ⟨e2, he2, hF⟩ := ih h2
      exact ⟨e2, List.mem_cons_of_mem e he2, hF⟩

/-- Helper: reading back the element just written by `List.set`. -/
theorem list_getD_set_self {α : Type} (l : List α) (n : Nat) (a d : α)
    (h : n < l.length) : (l.set n a).getD n d = a := by
  induction l generalizing n with
  | nil => simp at h
  | cons x xs ih =>
    cases n with
    | zero => rfl
    | succ m =>
      rw [List.set_cons_succ, List.getD_cons_succ]
      exact ih m (by simpa using h)

/-- Helper: every successful rewrite rule clears its own detector — the
scanner/fixer consistency fact at the heart of the idempotence guarantee. -/
theorem fixLine_clears (k : Agent.DefectKind) (l l2 : List Char)
    (h : Agent.fixLine k l = some l2) : Agent.detector k l2 = false := by
  cases k with
  | LINTING =>
    rw [Agent.fixLine] at h
    injection h with h2
    rw [← h2]
    rfl
  | SYNTAX =>
    rw [Agent.fixLine] at h
    injection h with h2
    rw [← h2]
    simp only [Agent.detector]
    rw [List.getLast?_concat]
    simp
  | TYPE_ERROR =>
    rw [Agent.fixLine] at h
    exact Option.noConfusion h
  | INDENTATION =>
    rw [Agent.fixLine] at h
    injection h with h2
    rw [← h2]
    rfl
  | IMPORT =>
    rw [Agent.fixLine] at h
    injection h with h2
    rw [← h2]
    rfl

/-- Helper: `failedCount` is zero exactly when no fix has status Failed. -/
theorem failedCount_eq_zero (fs : List Agent.Fix) :
    Agent.failedCount fs = 0 ↔ ∀ fx ∈ fs, fx.status ≠ Agent.FixStatus.Failed := by
  rw [Agent.failedCount]
  simp [List.countP_eq_zero]

/-- Helper: the simulator never returns RUNNING: its verdict is PASSED or
FAILED. -/
theorem evaluate_cases (wc : List Agent.FileEntry) (fs : List Agent.Fix) :
    Agent.evaluate wc fs = .PASSED ∨ Agent.evaluate wc fs = .FAILED := by
  rw [Agent.evaluate]
  split_ifs <;> simp

/-- C4: the Pipeline Simulator's verdict, a pure function of the working
copy and the current iteration's fixes, is PASSED exactly when no unresolved
Finding remains and no Fix of the iteration has status Failed, and in every
other case it is FAILED. -/
theorem evaluate_verdict (wc : List Agent.FileEntry) (fixes : List Agent.Fix) :
    (Agent.evaluate wc fixes = .PASSED ↔
      (Agent.scanWC wc = [] ∧ ∀ fx ∈ fixes, fx.status ≠ Agent.FixStatus.Failed))
    ∧ (Agent.evaluate wc fixes ≠ .PASSED → Agent.evaluate wc fixes = .FAILED) := by
  constructor
  · rw [Agent.evaluate]
    split_ifs with h
    · exact iff_of_true rfl ⟨h.1, (failedCount_eq_zero fixes).mp h.2⟩
    · refine iff_of_false (by simp) ?_
      intro hc
      exact h ⟨hc.1, (failedCount_eq_zero fixes).mpr hc.2⟩
  · intro h
    rcases evaluate_cases wc fixes with h1 | h1
    · exact absurd h1 h
    · exact h1

/-- C6: after the Fix Engine resolves a Finding with a Fix of status Fixed,
re-running the Defect Scanner on the rewritten working copy reports no
Finding equal to it (same file, same defect kind, same location). -/
theorem fixed_finding_not_rescanned (wc wc2 : List Agent.FileEntry)
    (fi : Agent.Finding) (fx : Agent.Fix)
    (happ : Agent.applyFix wc fi = (wc2, fx))
    (hfx : fx.status = Agent.FixStatus.Fixed) :
    (Agent.scanWC wc2).countP (Agent.findingMatches fi) = 0 := by
  cases hfl : Agent.fixLine fi.kind fi.raw with
  | none =>
    rw [Agent.applyFix, hfl] at happ
    have hst := congrArg (fun q => q.2.status) happ
    simp only at hst
    rw [hfx] at hst
    exact Agent.FixStatus.noConfusion hst
  | some l2 =>
    rw [Agent.applyFix, hfl] at happ
    have hwc2 : wc2 = wc.map (fun e =>
        if e.path = fi.file then { e with lines := e.lines.set fi.line l2 } else e) :=
      (congrArg Prod.fst happ).symm
    have hclear : Agent.detector fi.kind l2 = false := fixLine_clears fi.kind fi.raw l2 hfl
    rw [List.countP_eq_zero]
    intro F2 hF2 hmatch
    rw [Agent.findingMatches] at hmatch
    simp only [Bool.and_eq_true, decide_eq_true_eq] at hmatch
    obtain ⟨⟨hfile, hkind⟩, hline⟩ := hmatch
    obtain ⟨e2, he2, hFin⟩ := scanWC_mem F2 wc2 hF2
    obtain ⟨hp, _, hlt, hdet⟩ := scanLinesFrom_mem e2.path F2 0 e2.lines hFin
    rw [hwc2] at he2
    obtain ⟨e, _, hge⟩ := List.mem_map.mp he2
    by_cases hpath : e.path = fi.file
    · rw [if_pos hpath] at hge
      subst hge
      rw [Nat.sub_zero] at hlt hdet
      have hlen : F2.line < e.lines.length := by
        simpa [List.length_set] using hlt
      rw [hline] at hlen hdet
      rw [list_getD_set_self e.lines fi.line l2 [] hlen] at hdet
      rw [hkind] at hdet
      rw [hclear] at hdet
      exact Bool.noConfusion hdet
    · rw [if_neg hpath] at hge
      subst hge
      rw [hfile] at hp
      exact hpath hp.symm

/-- Witness for `fixed_finding_not_rescanned`: fixing the LINTING Finding of
the one-debug-statement working copy and re-scanning reports nothing equal
to it. -/
theorem fixed_finding_not_rescanned_witness :
    (Agent.scanWC (Agent.applyFix Agent.wcLint Agent.fiLint).1).countP
      (Agent.findingMatches Agent.fiLint) = 0 :=
  fixed_finding_not_rescanned Agent.wcLint (Agent.applyFix Agent.wcLint Agent.fiLint).1
    Agent.fiLint (Agent.applyFix Agent.wcLint Agent.fiLint).2 rfl (by decide)

/-- Helper: the last element of a list is a member. -/
theorem getLast?_is_mem {α : Type} : ∀ (l : List α) (a : α),
    l.getLast? = some a → a ∈ l
  | [], _, h => by simp at h
  | [x], a, h => by
    simp only [List.getLast?_singleton, Option.some.injEq] at h
    simp [h]
  | x :: y :: ys, a, h => by
    rw [List.getLast?_cons_cons] at h
    exact List.mem_cons_of_mem x (getLast?_is_mem (y :: ys) a h)

/-- Helper: the Healing Loop's accumulator invariant — with `fuel`
iterations left and `iter` completed (one FAILED PipelineRun recorded for
each), the final record has one PipelineRun per completed iteration, at
most `iter + fuel` iterations in total, and terminates PASSED exactly when
its last PipelineRun PASSED. -/
theorem healLoop_spec :
    ∀ (fuel iter : Nat) (wc : List Agent.FileEntry) (accF : List Agent.Fix)
      (accR : List Agent.PipelineRun),
      accR.length = iter →
      (∀ pr ∈ accR, pr.status = Agent.PipelineStatus.FAILED) →
      (Agent.healLoop fuel iter wc accF accR).runs.length
          = (Agent.healLoop fuel iter wc accF accR).totalIterations
        ∧ (Agent.healLoop fuel iter wc accF accR).totalIterations ≤ iter + fuel
        ∧ ((Agent.healLoop fuel iter wc accF accR).outcome = Agent.RunOutcome.PASSED ↔
            ∃ pr, (Agent.healLoop fuel iter wc accF accR).runs.getLast? = some pr
              ∧ pr.status = Agent.PipelineStatus.PASSED) := by
  intro fuel
  induction fuel with
  | zero =>
    intro iter wc accF accR hlen hfail
    rw [Agent.healLoop]
    refine ⟨hlen, Nat.le_refl iter, ?_⟩
    constructor
    · intro hc
      exact Agent.RunOutcome.noConfusion hc
    · rintro ⟨pr, hpr, hst⟩
      have := hfail pr (getLast?_is_mem accR pr hpr)
      rw [this] at hst
      exact Agent.PipelineStatus.noConfusion hst
  | succ n ih =>
    intro iter wc accF accR hlen hfail
    rw [Agent.healLoop]
    by_cases hv : Agent.evaluate (Agent.fixAll wc (Agent.scanWC wc)).1
        (Agent.fixAll wc (Agent.scanWC wc)).2 = Agent.PipelineStatus.PASSED
    · rw [hv, if_pos rfl]
      refine ⟨?_, ?_, ?_⟩
      · show (accR ++ [Agent.PipelineRun.mk (iter + 1) Agent.PipelineStatus.PASSED]).length
            = iter + 1
        simp [hlen]
      · show iter + 1 ≤ iter + (n + 1)
        omega
      · constructor
        · intro _
          exact ⟨Agent.PipelineRun.mk (iter + 1) Agent.PipelineStatus.PASSED, by simp, rfl⟩
        · intro _
          rfl
    · rw [if_neg hv]
      have hfailv : Agent.evaluate (Agent.fixAll wc (Agent.scanWC wc)).1
          (Agent.fixAll wc (Agent.scanWC wc)).2 = Agent.PipelineStatus.FAILED := by
        rcases evaluate_cases (Agent.fixAll wc (Agent.scanWC wc)).1
          (Agent.fixAll wc (Agent.scanWC wc)).2 with h1 | h1
        · exact absurd h1 hv
        · exact h1
      have hlen2 : (accR ++ [Agent.PipelineRun.mk (iter + 1)
          (Agent.evaluate (Agent.fixAll wc (Agent.scanWC wc)).1
            (Agent.fixAll wc (Agent.scanWC wc)).2)]).length = iter + 1 := by
        simp [hlen]
      have hfail2 : ∀ pr ∈ (accR ++ [Agent.PipelineRun.mk (iter + 1)
          (Agent.evaluate (Agent.fixAll wc (Agent.scanWC wc)).1
            (Agent.fixAll wc (Agent.scanWC wc)).2)]),
          pr.status = Agent.PipelineStatus.FAILED := by
        intro pr hpr
        rcases List.mem_append.mp hpr with h1 | h1
        · exact hfail pr h1
        · rw [List.mem_singleton.mp h1, hfailv]
      obtain ⟨g1, g2, g3⟩ := ih (iter + 1) (Agent.fixAll wc (Agent.scanWC wc)).1
        (accF ++ (Agent.fixAll wc (Agent.scanWC wc)).2) _ hlen2 hfail2
      exact ⟨g1, by omega, g3⟩

/-- C5: in the final record of every run, the PipelineRun history holds
exactly one entry per completed iteration, the iteration count never
exceeds the configured budget, and the run terminates PASSED exactly when
its last PipelineRun has status PASSED (EXHAUSTED otherwise). -/
theorem runAgent_pipeline_invariant (maxIterations : Nat)
    (wc : List Agent.FileEntry) :
    (Agent.runAgent maxIterations wc).runs.length
        = (Agent.runAgent maxIterations wc).totalIterations
    ∧ (Agent.runAgent maxIterations wc).totalIterations ≤ maxIterations
    ∧ ((Agent.runAgent maxIterations wc).outcome = Agent.RunOutcome.PASSED ↔
        ∃ pr, (Agent.runAgent maxIterations wc).runs.getLast? = some pr
          ∧ pr.status = Agent.PipelineStatus.PASSED) := by
  obtain ⟨g1, g2, g3⟩ := healLoop_spec maxIterations 0 wc [] [] rfl (by intro pr h; simp at h)
  rw [Agent.runAgent]
  exact ⟨g1, by omega, g3⟩

/-- C7: the Healing Loop is a total function and always terminates: for
every working copy and every configured budget, the number of
scan→fix→simulate iterations it executes is bounded by `maxIterations`, as
is the length of the run history. -/
theorem runAgent_terminates (maxIterations : Nat) (wc : List Agent.FileEntry) :
    (Agent.runAgent maxIterations wc).totalIterations ≤ maxIterations
    ∧ (Agent.runAgent maxIterations wc).runs.length ≤ maxIterations := by
  obtain ⟨g1, g2, _⟩ := healLoop_spec maxIterations 0 wc [] [] rfl (by intro pr h; simp at h)
  rw [Agent.runAgent]
  constructor
  · omega
  · omega
